import Mathlib

/-!
Verification of the echem-viewer core against its specification.

The Python sources are shallowly embedded: a polars `DataFrame` becomes an
ordered association list of named rational-valued columns, numpy float
arithmetic becomes exact rational (or real, where square roots occur)
arithmetic, Python `None` becomes `Option`, and raised exceptions become
`Except.error`.  Every definition below is translated from a specific
function of the repository, named after it where Lean's lexical rules allow.
-/

namespace EchemViewer

/-- A polars DataFrame: an ordered list of named columns of rationals.
Column names are unique in polars; rectangularity is assumed where the
source assumes it. -/
abbrev DataFrame : Type := List (String × List ℚ)

namespace DataFrame

/-- `df.columns` in polars: the ordered list of column names. -/
def columns (df : DataFrame) : List String := df.map Prod.fst

/-- Select one column's values by name (first match, as in polars). -/
def getCol (df : DataFrame) (name : String) : Option (List ℚ) :=
  match df with
  | [] => none
  | (n, v) :: rest => if n = name then some v else getCol rest name

/-- Number of rows, read off the first column (polars `len`). -/
def height (df : DataFrame) : ℕ :=
  match df with
  | [] => 0
  | (_, v) :: _ => v.length

/-- `df.with_columns(expr.alias(name))`: replaces the column in place when
`name` already exists, otherwise appends it at the end. -/
def withColumn (df : DataFrame) (name : String) (vals : List ℚ) : DataFrame :=
  match df with
  | [] => [(name, vals)]
  | (n, v) :: rest =>
      if n = name then (n, vals) :: rest
      else (n, v) :: withColumn rest name vals

end DataFrame

/-! ## EIS analysis — `src/echem_core/analysis/eis.py` -/

/-- Sorting pairs ascending by first component, the model of
`np.argsort(re_z)` applied to the `(re_z, -im_z)` arrays.  Insertion sort
is stable; ties keep the input order. -/
def sortByRe (l : List (ℚ × ℚ)) : List (ℚ × ℚ) :=
  List.insertionSort (fun p q : ℚ × ℚ => p.1 ≤ q.1) l

/-- The sign-change scan of `find_hf_intercept`: walk consecutive pairs of
the sorted `(x, y)` list and return the interpolated zero crossing at the
first pair with `y_i * y_{i+1} < 0`. -/
def firstCrossing : List (ℚ × ℚ) → Option ℚ
  | p :: q :: rest =>
      if p.2 * q.2 < 0 then
        some (p.1 + (-p.2 / (q.2 - p.2)) * (q.1 - p.1))
      else firstCrossing (q :: rest)
  | _ => none

/-- `np.abs(arr).argmin()` over the second components: index of the first
element of minimal absolute `y`, as numpy's argmin returns the first
minimizing index.  numpy raises `ValueError` on an empty array, hence the
`Option`. -/
def argminAbsSnd (l : List (ℚ × ℚ)) : Option (ℚ × ℚ) :=
  match l with
  | [] => none
  | p :: rest =>
      match argminAbsSnd rest with
      | none => some p
      | some q => if |p.2| ≤ |q.2| then some p else some q

/-- `find_hf_intercept` (eis.py lines 7-50).  Returns
`Except.error` where the Python raises (numpy `argmin` of an empty array),
`Except.ok none` where it returns `None`, and `Except.ok (some r)` for a
found intercept. -/
def find_hf_intercept (df : DataFrame) : Except String (Option ℚ) :=
  if "z_real_Ohm" ∈ df.columns ∧ "z_imag_Ohm" ∈ df.columns then
    let re_z := (df.getCol "z_real_Ohm").getD []
    let im_z := (df.getCol "z_imag_Ohm").getD []
    let neg_im_z := im_z.map Neg.neg
    let pairs := sortByRe (re_z.zip neg_im_z)
    match firstCrossing pairs with
    | some r => Except.ok (some r)
    | none =>
        match argminAbsSnd pairs with
        | none => Except.error "attempt to get argmin of an empty sequence"
        | some p => if |p.2| < 1 then Except.ok (some p.1) else Except.ok none
  else
    Except.ok none

/-- The computation described by the specification for `find_hf_intercept`
on a table holding both impedance columns: sort ascending by `z_real_Ohm`,
form `y = -z_imag_Ohm`, return the interpolated first strict sign change,
else fall back to the `z_real_Ohm` minimizing `|y|` when within 1 Ohm of
zero, else `None`. -/
def hfInterceptSpec (re_z im_z : List ℚ) : Option ℚ :=
  let pairs := sortByRe (re_z.zip (im_z.map Neg.neg))
  match firstCrossing pairs with
  | some r => some r
  | none =>
      match argminAbsSnd pairs with
      | none => none
      | some p => if |p.2| < 1 then some p.1 else none

/-! ## BioLogic parsing — `src/echem_core/parsers/biologic.py` and
`src/echem_core/types.py` -/

/-- `str.replace(".mpr", "")`: remove every (left-to-right, non-overlapping)
occurrence of `.mpr`. -/
def dropMpr : List Char → List Char
  | '.' :: 'm' :: 'p' :: 'r' :: rest => dropMpr rest
  | c :: rest => c :: dropMpr rest
  | [] => []

/-- String form of `dropMpr`. -/
def replaceMpr (s : String) : String := String.mk (dropMpr s.data)

/-- `re.sub(r"_C\d+$", "", s)`: strip a trailing underscore-C-digits
segment.  The anchored regex matches exactly when the maximal trailing
digit run is nonempty and is preceded by the two characters `_C`. -/
def stripSuffixCNum (s : String) : String :=
  let r := s.data.reverse
  let digits := r.takeWhile Char.isDigit
  let rest := r.dropWhile Char.isDigit
  if digits ≠ [] ∧ rest.take 2 = ['C', '_'] then String.mk (rest.drop 2).reverse
  else s

/-- The anchored match of `_(\d{2})_([A-Z]+)$` against `s`, returning the
second group (the trailing run of capitals) when the pattern matches:
the maximal trailing run of capitals, preceded by underscore, exactly two
digits, and another underscore. -/
def matchNNTech (s : String) : Option String :=
  let r := s.data.reverse
  let caps := r.takeWhile Char.isUpper
  match r.dropWhile Char.isUpper with
  | '_' :: a :: b :: '_' :: _ =>
      if caps ≠ [] ∧ a.isDigit ∧ b.isDigit then some (String.mk caps.reverse)
      else none
  | _ => none

/-- `re.sub(r"_\d{2}_[A-Z]+$", "", s)`: strip a trailing
underscore, two digits, underscore, capitals segment. -/
def stripSuffixNNTech (s : String) : String :=
  let r := s.data.reverse
  let caps := r.takeWhile Char.isUpper
  match r.dropWhile Char.isUpper with
  | '_' :: a :: b :: '_' :: rest =>
      if caps ≠ [] ∧ a.isDigit ∧ b.isDigit then String.mk rest.reverse else s
  | _ => s

/-- `TECHNIQUE_MAP.values()` of biologic.py, in insertion order (with the
duplicates Python preserves when iterating values). -/
def techniqueValues : List String :=
  ["CA", "CA", "CC", "CP", "CV", "LSV", "OCV", "OCP", "PEIS", "GEIS", "EIS",
   "CC", "CV", "ZIR"]

/-- `base.split("_")` on the character list (Python `str.split` with an
explicit separator keeps empty fields). -/
def splitUnderscore (l : List Char) : List (List Char) :=
  l.foldr
    (fun c acc =>
      match acc with
      | grp :: rest => if c = '_' then [] :: grp :: rest else (c :: grp) :: rest
      | [] => [[c]])
    [[]]

/-- `extract_technique_from_filename` (biologic.py lines 30-52). -/
def extract_technique_from_filename (filename : String) : Option String :=
  let base := stripSuffixCNum (replaceMpr filename)
  let fallback : Option String :=
    match techniqueValues.find? (fun a => (a ++ "_").data.isPrefixOf base.data || base = a) with
    | some a => some a
    | none => ((splitUnderscore base.data).map String.mk).find? (· ∈ techniqueValues)
  match matchNNTech base with
  | some t => if t ∈ techniqueValues then some t else fallback
  | none => fallback

/-- `extract_label_from_filename` (biologic.py lines 55-60). -/
def extract_label_from_filename (filename : String) : String :=
  stripSuffixNNTech (stripSuffixCNum (replaceMpr filename))

/-- `BIOLOGIC_COLUMN_MAP` (types.py lines 78-88):
`source column -> (canonical name, source unit, target unit)`. -/
def BIOLOGIC_COLUMN_MAP : List (String × String × Option String × Option String) :=
  [("time/s", ("time_s", some "second", some "second")),
   ("Ewe/V", ("potential_V", some "volt", some "volt")),
   ("<I>/mA", ("current_A", some "milliampere", some "ampere")),
   ("Re(Z)/Ohm", ("z_real_Ohm", some "ohm", some "ohm")),
   ("-Im(Z)/Ohm", ("z_imag_Ohm", some "ohm", some "ohm")),
   ("|Z|/Ohm", ("z_mag_Ohm", some "ohm", some "ohm")),
   ("Phase(Z)/deg", ("z_phase_deg", some "degree", some "degree")),
   ("freq/Hz", ("frequency_Hz", some "hertz", some "hertz")),
   ("cycle number", ("cycle", none, none))]

/-- `convert_units(1.0, source, target)` (types.py lines 48-61).  The pint
unit registry is an external library; its factor for the one differing
unit pair appearing in `BIOLOGIC_COLUMN_MAP` is milliampere→ampere
= 1/1000 (spec §6: `<I>/mA` → `current_A` ×10⁻³).  Equal or empty units
convert by the identity. -/
def unitFactor (su tu : String) : ℚ :=
  if su = tu then 1
  else if su = "milliampere" ∧ tu = "ampere" then 1 / 1000
  else 1

/-- Association-list lookup in `BIOLOGIC_COLUMN_MAP`. -/
def lookupBioCol (col : String) : Option (String × Option String × Option String) :=
  (BIOLOGIC_COLUMN_MAP.find? (fun e => e.1 = col)).map Prod.snd

/-- `standardize_dataframe` (biologic.py lines 63-81): rename mapped
columns, rescale when source and target units are both present and
differ, keep unmapped columns as-is. -/
def standardize_dataframe (df : DataFrame) : DataFrame :=
  df.map (fun cv =>
    match lookupBioCol cv.1 with
    | some (name, su, tu) =>
        match su, tu with
        | some s, some t =>
            if s ≠ t then (name, cv.2.map (fun x => x * unitFactor s t))
            else (name, cv.2)
        | _, _ => (name, cv.2)
    | none => cv)

/-- The canonical dataset record (types.py `EchemDataset`).  Timestamps
are kept as opaque ISO strings; `cycles` keeps the float values of the
`cycle` column. -/
structure EchemDataset where
  filename : String
  df : DataFrame
  columns : List String
  technique : Option String
  label : Option String
  timestamp : Option String
  cycles : List ℚ
  source_format : Option String
  original_filename : Option String
  file_hash : Option String
  user_metadata : List (String × String)

/-- `sorted(series.unique().to_list())`: the sorted distinct values. -/
def sortedUnique (l : List ℚ) : List ℚ :=
  List.insertionSort (· ≤ ·) l.dedup

/-- `read_mpr_file` (biologic.py lines 84-127) downstream of the external
galvani decoder: `decoded` stands for the column dictionary the decoder
yields (the decoder itself is an external library, spec §1).  The decoder
timestamp is not modelled (`none`). -/
def read_mpr_decoded (decoded : DataFrame) (filename : String) : EchemDataset :=
  let df := standardize_dataframe decoded
  { filename := filename
    df := df
    columns := df.columns
    technique := extract_technique_from_filename filename
    label := some (extract_label_from_filename filename)
    timestamp := none
    cycles := if "cycle" ∈ df.columns then sortedUnique ((df.getCol "cycle").getD []) else []
    source_format := some "biologic"
    original_filename := some filename
    file_hash := none
    user_metadata := [] }

/-! ## Transforms — `src/echem_core/transforms.py` -/

/-- `REFERENCE_ELECTRODES` (transforms.py lines 13-22), volts vs SHE. -/
def REFERENCE_ELECTRODES : List (String × ℚ) :=
  [("SHE", 0),
   ("Ag/AgCl (sat. KCl)", 197 / 1000),
   ("Ag/AgCl (3M KCl)", 210 / 1000),
   ("Ag/AgCl (3M NaCl)", 209 / 1000),
   ("SCE", 244 / 1000),
   ("Hg/HgO (1M NaOH)", 140 / 1000),
   ("Hg/HgO (1M KOH)", 98 / 1000),
   ("Hg/Hg2SO4 (sat. K2SO4)", 654 / 1000)]

/-- Dictionary lookup into `REFERENCE_ELECTRODES`. -/
def lookupRef (name : String) : Option ℚ :=
  (REFERENCE_ELECTRODES.find? (fun e => e.1 = name)).map Prod.snd

/-- `_copy_dataset` (transforms.py lines 80-94): new dataset with the new
table, columns recomputed, all metadata carried over. -/
def copy_dataset (ds : EchemDataset) (new_df : DataFrame) : EchemDataset :=
  { ds with df := new_df, columns := new_df.columns }

/-- The derived column name of `convert_reference`: `to_ref` with spaces
turned into underscores and parentheses removed, wrapped in
`potential_vs_..._V`. -/
def refColName (to_ref : String) : String :=
  "potential_vs_" ++
    String.mk (to_ref.data.filterMap (fun c =>
      if c = ' ' then some '_'
      else if c = '(' ∨ c = ')' then none
      else some c)) ++ "_V"

/-- `convert_reference` (transforms.py lines 25-41).  Unknown electrode
names raise `ValueError`; a missing source column raises in polars. -/
def convert_reference (ds : EchemDataset) (from_ref to_ref : String)
    (column : String := "potential_V") : Except String EchemDataset :=
  match lookupRef from_ref with
  | none => Except.error ("Unknown reference: " ++ from_ref)
  | some vf =>
      match lookupRef to_ref with
      | none => Except.error ("Unknown reference: " ++ to_ref)
      | some vt =>
          let offset := vf - vt
          match ds.df.getCol column with
          | none => Except.error ("column not found: " ++ column)
          | some vals =>
              Except.ok (copy_dataset ds (ds.df.withColumn (refColName to_ref)
                (vals.map (fun x => x + offset))))

/-- `ir_compensate` (transforms.py lines 44-55): adds
`potential_ir_corrected_V = potential_V - current_A * R`. -/
def ir_compensate (ds : EchemDataset) (resistance_ohm : ℚ)
    (v_col : String := "potential_V") (i_col : String := "current_A") :
    Except String EchemDataset :=
  match ds.df.getCol v_col with
  | none => Except.error ("column not found: " ++ v_col)
  | some vs =>
      match ds.df.getCol i_col with
      | none => Except.error ("column not found: " ++ i_col)
      | some is' =>
          Except.ok (copy_dataset ds (ds.df.withColumn "potential_ir_corrected_V"
            (List.zipWith (fun v i => v - i * resistance_ohm) vs is')))

/-- `normalize_by_area` (transforms.py lines 58-66): adds
`current_density_A_cm2 = current_A / area`. -/
def normalize_by_area (ds : EchemDataset) (area_cm2 : ℚ)
    (column : String := "current_A") : Except String EchemDataset :=
  match ds.df.getCol column with
  | none => Except.error ("column not found: " ++ column)
  | some vals =>
      Except.ok (copy_dataset ds (ds.df.withColumn "current_density_A_cm2"
        (vals.map (fun x => x / area_cm2))))

/-- `normalize_by_mass` (transforms.py lines 69-77): adds
`current_A_g = current_A / mass`. -/
def normalize_by_mass (ds : EchemDataset) (mass_g : ℚ)
    (column : String := "current_A") : Except String EchemDataset :=
  match ds.df.getCol column with
  | none => Except.error ("column not found: " ++ column)
  | some vals =>
      Except.ok (copy_dataset ds (ds.df.withColumn "current_A_g"
        (vals.map (fun x => x / mass_g))))

/-! ## Association-list helpers (Python `dict` with unique keys) -/

/-- `d.get(k)` / `d[k]`. -/
def alistLookup {α : Type} : List (String × α) → String → Option α
  | [], _ => none
  | (k, v) :: rest, key => if k = key then some v else alistLookup rest key

/-- `del d[k]` / `d.pop(k)`: removes the binding (keys are unique, so at
most one). -/
def alistErase {α : Type} : List (String × α) → String → List (String × α)
  | [], _ => []
  | (k, v) :: rest, key => if k = key then rest else (k, v) :: alistErase rest key

/-- `d[k] = v`: replaces the existing binding in place, appends at the end
otherwise (Python dicts preserve insertion order). -/
def alistUpdate {α : Type} : List (String × α) → String → α → List (String × α)
  | [], key, v => [(key, v)]
  | (k, w) :: rest, key, v =>
      if k = key then (k, v) :: rest else (k, w) :: alistUpdate rest key v

/-- `k in d`. -/
def alistHasKey {α : Type} (l : List (String × α)) (key : String) : Bool :=
  (alistLookup l key).isSome

/-! ## Session state — `src/backend/state.py` -/

/-- `SESSION_TTL_HOURS` (state.py line 16). -/
def SESSION_TTL_HOURS : ℚ := 24

/-- `SessionState` (state.py lines 20-33): times are modelled as rational
hour counts. -/
structure SessionState where
  session_id : String
  created_at : ℚ
  last_accessed : ℚ
  datasets : List (String × EchemDataset)
  file_metadata : List (String × List (String × String))

/-- `SessionState.is_expired` (state.py lines 99-102): strictly more than
TTL hours since the last access. -/
def SessionState.is_expired (s : SessionState) (now : ℚ) : Bool :=
  s.last_accessed + SESSION_TTL_HOURS < now

/-- The session map of `SessionManager`. -/
abbrev Sessions : Type := List (String × SessionState)

/-- `SessionManager.get_session` (state.py lines 120-131): expired
sessions are deleted and `None` returned; live ones are touched.  Returns
the result together with the session map after the call. -/
def get_session (now : ℚ) (sessions : Sessions) (session_id : String) :
    Option SessionState × Sessions :=
  match alistLookup sessions session_id with
  | none => (none, sessions)
  | some s =>
      if s.is_expired now then (none, alistErase sessions session_id)
      else
        let s' := { s with last_accessed := now }
        (some s', alistUpdate sessions session_id s')

/-- `SessionManager.create_session` (state.py lines 113-118): the fresh
UUID is passed in as `fresh_id`. -/
def create_session (now : ℚ) (fresh_id : String) (sessions : Sessions) :
    String × Sessions :=
  (fresh_id, alistUpdate sessions fresh_id
    { session_id := fresh_id, created_at := now, last_accessed := now,
      datasets := [], file_metadata := [] })

/-- `SessionManager.get_or_create_session` (state.py lines 133-145).
Returns the id handed back to the client and the session map after the
call (`if session_id:` is Python truthiness: `None` and `""` both fail). -/
def get_or_create_session (now : ℚ) (fresh_id : String) (sessions : Sessions)
    (session_id : Option String) : String × Sessions :=
  match session_id with
  | some sid =>
      if sid ≠ "" then
        match get_session now sessions sid with
        | (some _, sessions') => (sid, sessions')
        | (none, sessions') => create_session now fresh_id sessions'
      else create_session now fresh_id sessions
  | none => create_session now fresh_id sessions

/-! ## XAS project DB — `src/backend/routers/xas.py` -/

/-- A stored ROI configuration (`roi_configs` collection). -/
structure ROIConfig where
  name : String
  numerator : String
  denominator : Option String
  element : Option String
  energy_min : Option ℚ
  energy_max : Option ℚ

/-- A stored scan record (`scans` collection). -/
structure ScanRecord where
  sample : String
  dataset : String
  roi : String
  scan : String
  status : String
  aligned : Bool
  reference_name : Option String
  energy_shift : ℚ

/-- A stored energy-calibration reference (`references` collection). -/
structure ReferenceData where
  name : String
  element : String
  source_sample : String
  source_dataset : String
  scans : List String
  measured_E0 : ℚ
  measured_E0_std : ℚ
  target_E0 : ℚ
  energy_shift : ℚ
  created_date : String

/-- The TinyDB document store of one XAS project. -/
structure XasDb where
  roi_configs : List ROIConfig
  references : List ReferenceData
  scans : List ScanRecord

/-- Outcome of a delete endpoint: success, HTTP 404, or the HTTP 400
raised when a reference is still used by `n` scans. -/
inductive DeleteOutcome : Type
  | ok : DeleteOutcome
  | notFound : DeleteOutcome
  | inUse : ℕ → DeleteOutcome
deriving DecidableEq, Repr

/-- `delete_roi_config` (xas.py lines 417-425): removes every ROI config
of that name; 404 when none matched.  There is no in-use check. -/
def delete_roi_config (db : XasDb) (name : String) : DeleteOutcome × XasDb :=
  let remaining := db.roi_configs.filter (fun c => c.name ≠ name)
  if remaining.length = db.roi_configs.length then (DeleteOutcome.notFound, db)
  else (DeleteOutcome.ok, { db with roi_configs := remaining })

/-- `delete_reference` (xas.py lines 804-822): refuses with HTTP 400 and
the count of referencing scans when any scan's `reference_name` matches;
otherwise removes, with 404 when nothing matched. -/
def delete_reference (db : XasDb) (name : String) : DeleteOutcome × XasDb :=
  let scans_using := db.scans.filter (fun s => s.reference_name = some name)
  if scans_using.isEmpty then
    let remaining := db.references.filter (fun r => r.name ≠ name)
    if remaining.length = db.references.length then (DeleteOutcome.notFound, db)
    else (DeleteOutcome.ok, { db with references := remaining })
  else (DeleteOutcome.inUse scans_using.length, db)

/-! ## Peak fitting — `src/echem_core/xas/peak_fitting.py` -/

/-- `lorentzian_d2` (peak_fitting.py lines 38-74) with the flattened
parameter triples `(A, x0, gamma)` grouped.  Note the `gamma^4` factor the
source puts into the denominator. -/
def lorentzian_d2 (params : List (ℚ × ℚ × ℚ)) (x : ℚ) : ℚ :=
  params.foldl
    (fun acc p =>
      let A := p.1
      let x0 := p.2.1
      let gamma := p.2.2
      let diff := x - x0
      let term := diff ^ 2 + gamma ^ 2
      acc + 2 * A * gamma ^ 2 * (3 * diff ^ 2 - gamma ^ 2) / (gamma ^ 4 * term ^ 3))
    0

/-- The model function the specification (and the source's own comment,
peak_fitting.py line 67) states: the sum over peaks of the second
derivative of `L(x) = A * gamma^2 / ((x - x0)^2 + gamma^2)`, which is
`2*A*gamma^2*(3*(x-x0)^2 - gamma^2) / ((x-x0)^2 + gamma^2)^3`. -/
def lorentzianD2Claim (params : List (ℚ × ℚ × ℚ)) (x : ℚ) : ℚ :=
  params.foldl
    (fun acc p =>
      let A := p.1
      let x0 := p.2.1
      let gamma := p.2.2
      let diff := x - x0
      let term := diff ^ 2 + gamma ^ 2
      acc + 2 * A * gamma ^ 2 * (3 * diff ^ 2 - gamma ^ 2) / term ^ 3)
    0

/-! ## Session serialization — `src/echem_core/export.py`

The zip container is modelled structurally: `metadata.json`'s file
registry and the `data/*.parquet` members (Parquet writing and reading is
an external, lossless codec and is modelled as the identity on tables).
The call is modelled with the plot arguments at their defaults
(`plot_settings=None`, `include_csv=False`, `plot_code=None`,
`plot_codes=None`, `plots_config=None`), so no `plots/`, `ui_state.json`
or csv members arise; `file_table.csv` is never read back by
`session_import` and is not modelled. -/

/-- One per-file custom-metadata dictionary. -/
abbrev Meta : Type := List (String × String)

/-- The `filename -> custom columns` map passed to the exporters. -/
abbrev FileMeta : Type := List (String × Meta)

/-- One entry of `metadata.json`'s `files` list (export.py lines 71-85). -/
structure FileEntry where
  filename : String
  data_path : String
  technique : Option String
  timestamp : Option String
  source_format : Option String
  columns : List String
  cycles : List ℚ
  label : Option String
  custom : Meta
  prov_original_filename : Option String
  prov_file_hash : Option String

/-- The export container: the file registry and the data members keyed by
their archive path. -/
structure ExportZip where
  files : List FileEntry
  data : List (String × DataFrame)

/-- `f"data/{ds.filename}.parquet"`. -/
def dataPath (filename : String) : String := "data/" ++ filename ++ ".parquet"

/-- One iteration of `session_export`'s dataset loop (export.py lines
53-86).  `custom = file_metadata.get(ds.filename, {})` aliases the
caller's entry, so the `custom.pop("label", ds.label)` on the next line
mutates the caller's map; the returned `FileMeta` is the caller's map
after the iteration. -/
def exportStep (fm : FileMeta) (ds : EchemDataset) :
    FileEntry × (String × DataFrame) × FileMeta :=
  let custom0 := (alistLookup fm ds.filename).getD []
  let hasLabel := alistHasKey custom0 "label"
  let label := if hasLabel then alistLookup custom0 "label" else ds.label
  let custom := if hasLabel then alistErase custom0 "label" else custom0
  let fm' := if hasLabel then alistUpdate fm ds.filename custom else fm
  ({ filename := ds.filename
     data_path := dataPath ds.filename
     technique := ds.technique
     timestamp := ds.timestamp
     source_format := ds.source_format
     columns := ds.columns
     cycles := ds.cycles
     label := label
     custom := custom
     prov_original_filename := ds.original_filename
     prov_file_hash := ds.file_hash },
   (dataPath ds.filename, ds.df), fm')

/-- The dataset loop of `session_export`, threading the caller-visible
metadata map through the iterations. -/
def sessionExportCore :
    List EchemDataset → FileMeta →
      List FileEntry × List (String × DataFrame) × FileMeta
  | [], fm => ([], [], fm)
  | ds :: rest, fm =>
      let step := exportStep fm ds
      let tail := sessionExportCore rest step.2.2
      (step.1 :: tail.1, step.2.1 :: tail.2.1, tail.2.2)

/-- `session_export` (export.py lines 17-127): the produced container
together with the state of the caller's `file_metadata` map after the
call. -/
def session_export (datasets : List EchemDataset) (file_metadata : FileMeta) :
    ExportZip × FileMeta :=
  let core := sessionExportCore datasets file_metadata
  ({ files := core.1, data := core.2.1 }, core.2.2)

/-- One iteration of `csv_export`'s dataset loop (export.py lines
164-184): identical bookkeeping, except that
`custom = file_metadata.get(ds.filename, {}).copy()` copies first, so the
pop acts on the copy and the caller's map is untouched (a copy has value
semantics here). -/
def csvExportStep (fm : FileMeta) (ds : EchemDataset) :
    FileEntry × (String × DataFrame) × FileMeta :=
  let custom0 := (alistLookup fm ds.filename).getD []
  let hasLabel := alistHasKey custom0 "label"
  let label := if hasLabel then alistLookup custom0 "label" else ds.label
  let custom := if hasLabel then alistErase custom0 "label" else custom0
  ({ filename := ds.filename
     data_path := "data/" ++ ds.filename ++ ".csv"
     technique := ds.technique
     timestamp := ds.timestamp
     source_format := ds.source_format
     columns := ds.columns
     cycles := ds.cycles
     label := label
     custom := custom
     prov_original_filename := none
     prov_file_hash := none },
   ("data/" ++ ds.filename ++ ".csv", ds.df), fm)

/-- The dataset loop of `csv_export` (export.py lines 130-225). -/
def csvExportCore :
    List EchemDataset → FileMeta →
      List FileEntry × List (String × DataFrame) × FileMeta
  | [], fm => ([], [], fm)
  | ds :: rest, fm =>
      let step := csvExportStep fm ds
      let tail := csvExportCore rest step.2.2
      (step.1 :: tail.1, step.2.1 :: tail.2.1, tail.2.2)

/-- `csv_export` with the caller's map after the call. -/
def csv_export (datasets : List EchemDataset) (file_metadata : FileMeta) :
    ExportZip × FileMeta :=
  let core := csvExportCore datasets file_metadata
  ({ files := core.1, data := core.2.1 }, core.2.2)

/-- The per-entry body of `session_import`'s native-format loop
(export.py lines 270-318): resolve the data path with its fallbacks (skip
the entry when none resolves), rebuild the dataset, and merge the entry's
custom columns with its label into the rebuilt `file_metadata`. -/
def importStep (zdata : List (String × DataFrame))
    (acc : List EchemDataset × FileMeta) (fi : FileEntry) :
    List EchemDataset × FileMeta :=
  let path :=
    if (alistLookup zdata fi.data_path).isSome then some fi.data_path
    else if (alistLookup zdata ("data/" ++ fi.filename ++ ".parquet")).isSome then
      some ("data/" ++ fi.filename ++ ".parquet")
    else if (alistLookup zdata ("data/" ++ fi.filename ++ ".csv")).isSome then
      some ("data/" ++ fi.filename ++ ".csv")
    else none
  match path with
  | none => acc
  | some p =>
      let df := (alistLookup zdata p).getD []
      let ds : EchemDataset :=
        { filename := fi.filename
          df := df
          columns := fi.columns
          technique := fi.technique
          label := fi.label
          timestamp := fi.timestamp
          cycles := fi.cycles
          source_format := fi.source_format
          original_filename := fi.prov_original_filename
          file_hash := fi.prov_file_hash
          user_metadata := [] }
      let custom :=
        match fi.label with
        | some s => if s ≠ "" then alistUpdate fi.custom "label" s else fi.custom
        | none => fi.custom
      let fm' := if custom.isEmpty then acc.2 else alistUpdate acc.2 fi.filename custom
      (acc.1 ++ [ds], fm')

/-- `session_import` (export.py lines 228-366), native-format branch for
a container produced by `session_export` above (`metadata.json` present,
no `plots/plots.json`, no `ui_state.json`): the rebuilt datasets and the
rebuilt `file_metadata`. -/
def session_import (z : ExportZip) : List EchemDataset × FileMeta :=
  z.files.foldl (importStep z.data) ([], [])

/-! ## XAS averaging and contribution analysis —
`src/echem_core/xas/processing.py`

numpy float arrays become lists of reals here: the per-bin standard
deviation is a square root, so ℝ (with noncomputable means) replaces ℚ
for this component only. -/

/-- `np.mean` of a 1-D array. -/
noncomputable def meanR (l : List ℝ) : ℝ := l.sum / l.length

/-- `np.std` of a 1-D array: the population standard deviation
`sqrt(mean((x - mean)^2))` (numpy's default `ddof=0`). -/
noncomputable def stdList (v : List ℝ) : ℝ :=
  Real.sqrt (meanR (v.map (fun x => (x - meanR v) ^ 2)))

/-- `np.std(arrays, axis=0)`: per-bin standard deviation across a stack
of equal-length curves. -/
noncomputable def stdAxis (curves : List (List ℝ)) : List ℝ :=
  curves.transpose.map stdList

/-- `np.mean(arrays, axis=0)`: per-bin mean across a stack of curves. -/
noncomputable def meanAxis (curves : List (List ℝ)) : List ℝ :=
  curves.transpose.map meanR

/-- One element of the `normalized_scans` list built in
`average_scans_for_dataset` (processing.py lines 339-344); the
normalization itself goes through the external Larch pre-edge provider
and is not modelled. -/
structure NormScanRec where
  scan_key : String
  energy : List ℝ
  norm : List ℝ
  e0 : ℝ

/-- `AveragedData` (processing.py lines 58-67). -/
structure AveragedData where
  energy : List ℝ
  norm : List ℝ
  std : List ℝ
  e0 : ℝ
  n_scans : ℕ
  scan_list : List String
  individual_norms : Option (List (List ℝ))

/-- The averaging tail of `average_scans_for_dataset` (processing.py
lines 350-377): `None` for an empty list of normalized scans, otherwise
per-bin mean, per-bin std (zeros for a single scan), mean `e0`, and the
retained individual curves. -/
noncomputable def averageScans (normalized_scans : List NormScanRec) :
    Option AveragedData :=
  match normalized_scans with
  | [] => none
  | first :: rest =>
      let scans := first :: rest
      let all_norms := scans.map (fun s => s.norm)
      let avg_norm := meanAxis all_norms
      some
        { energy := first.energy
          norm := avg_norm
          std := if 1 < all_norms.length then stdAxis all_norms
                 else List.replicate avg_norm.length 0
          e0 := meanR (scans.map (fun s => s.e0))
          n_scans := scans.length
          scan_list := scans.map (fun s => s.scan_key)
          individual_norms := some all_norms }

/-- `AveragedData.mean_std` (processing.py lines 80-82). -/
noncomputable def mean_std (a : AveragedData) : ℝ := meanR a.std

/-- One row of the contribution report (processing.py lines 108-112). -/
structure Contribution where
  scan_key : String
  mean_std_without : ℝ
  improvement : ℝ

/-- `AveragedData.contribution_analysis` (processing.py lines 84-114). -/
noncomputable def contribution_analysis (a : AveragedData) : List Contribution :=
  match a.individual_norms with
  | none => []
  | some norms =>
      if norms.length < 2 then []
      else
        let baseline_std := mean_std a
        a.scan_list.enum.map (fun p =>
          let other_norms := (norms.enum.filter (fun q => q.1 ≠ p.1)).map Prod.snd
          if 0 < other_norms.length then
            let msw := meanR (stdAxis other_norms)
            { scan_key := p.2, mean_std_without := msw,
              improvement := baseline_std - msw }
          else
            { scan_key := p.2, mean_std_without := 0, improvement := 0 })

/-! ## Concrete sample inputs used by the theorems below -/

/-- An XAS project DB with one ROI config, one reference, and one scan
that references both. -/
def sampleXasDb : XasDb :=
  { roi_configs := [{ name := "r", numerator := "mu", denominator := none,
                      element := none, energy_min := none, energy_max := none }]
    references := [{ name := "ref1", element := "Fe", source_sample := "s1",
                     source_dataset := "d1", scans := ["1.1"],
                     measured_E0 := 7112, measured_E0_std := 0, target_E0 := 7112,
                     energy_shift := 0, created_date := "2026-01-01" }]
    scans := [{ sample := "s1", dataset := "d1", roi := "r", scan := "1.1",
                status := "good", aligned := true, reference_name := some "ref1",
                energy_shift := 0 }] }

/-- A session map with one session last accessed at time 0. -/
def sampleSessions : Sessions :=
  [("s", { session_id := "s", created_at := 0, last_accessed := 0,
           datasets := [], file_metadata := [] })]

/-- A dataset that already carries a `potential_ir_corrected_V` column. -/
def sampleIrDataset : EchemDataset :=
  { filename := "f"
    df := [("potential_V", [1]), ("current_A", [1]), ("potential_ir_corrected_V", [5])]
    columns := ["potential_V", "current_A", "potential_ir_corrected_V"]
    technique := none, label := none, timestamp := none, cycles := []
    source_format := none, original_filename := none, file_hash := none
    user_metadata := [] }

/-- The iR-compensation scenario table of spec §8:
`potential_V = [1.0, 1.2]`, `current_A = [0.01, 0.02]`. -/
def sampleEcDataset : EchemDataset :=
  { filename := "f"
    df := [("potential_V", [1, 12 / 10]), ("current_A", [1 / 100, 2 / 100])]
    columns := ["potential_V", "current_A"]
    technique := some "CA", label := some "L", timestamp := none, cycles := []
    source_format := some "biologic", original_filename := some "f", file_hash := none
    user_metadata := [] }

/-- A file-metadata map holding one custom column and no label for `f`. -/
def sampleFileMeta : FileMeta := [("f", [("note", "x")])]

/-- A file-metadata map holding a custom column and a label for `f`. -/
def sampleFileMetaLabel : FileMeta := [("f", [("note", "x"), ("label", "M")])]

/-- A single normalized scan (leave-one-out has nothing to leave out). -/
def sampleNormScans1 : List NormScanRec :=
  [{ scan_key := "1.1", energy := [7100, 7101], norm := [1, 2], e0 := 7100 }]

/-- Two normalized scans on a shared two-point grid. -/
def sampleNormScans2 : List NormScanRec :=
  [{ scan_key := "1.1", energy := [7100, 7101], norm := [1, 2], e0 := 7100 },
   { scan_key := "1.2", energy := [7100, 7101], norm := [3, 6], e0 := 7102 }]

/-- A throwaway `AveragedData` used as the default of an `Option.getD`. -/
noncomputable def arbitraryAveraged : AveragedData :=
  { energy := [], norm := [], std := [], e0 := 0, n_scans := 0,
    scan_list := [], individual_norms := none }

/-- The averaged result of the two-scan sample. -/
noncomputable def averagedOfSample2 : AveragedData :=
  (averageScans sampleNormScans2).getD arbitraryAveraged

/-- The file entry `session_export` writes for one dataset given the
metadata map at that iteration. -/
def fileEntryOf (fm : FileMeta) (d : EchemDataset) : FileEntry :=
  (exportStep fm d).1

/-- What one round trip through `session_export`/`session_import` turns a
dataset into: identical canonical fields, the label replaced by the
file-metadata label when that map carries one, and `user_metadata`
dropped. -/
def importedDataset (fm : FileMeta) (d : EchemDataset) : EchemDataset :=
  let m := (alistLookup fm d.filename).getD []
  let hasL := alistHasKey m "label"
  { filename := d.filename
    df := d.df
    columns := d.columns
    technique := d.technique
    label := if hasL then alistLookup m "label" else d.label
    timestamp := d.timestamp
    cycles := d.cycles
    source_format := d.source_format
    original_filename := d.original_filename
    file_hash := d.file_hash
    user_metadata := [] }

/-- What one round trip turns a dataset's custom-metadata entry into: the
entry with its `label` key re-merged as the effective exported label. -/
def mergedCustom (fm : FileMeta) (d : EchemDataset) : Meta :=
  let m := (alistLookup fm d.filename).getD []
  let hasL := alistHasKey m "label"
  let custom := if hasL then alistErase m "label" else m
  match if hasL then alistLookup m "label" else d.label with
  | some s => if s ≠ "" then alistUpdate custom "label" s else custom
  | none => custom

/-! # Theorems

One theorem (plus counterexample and witness where required) per claim of
the specification review. -/

/-- C1: the claim states the fitted model is the sum of second derivatives
of Lorentzian peaks, `2*A*γ²*(3*(x-x0)² - γ²) / ((x-x0)² + γ²)³` — which
is also what the source's own comment at peak_fitting.py line 67 says.
The code divides by an extra `γ⁴`: at `A=1, x0=0, γ=2, x=0` the code
yields `-1/32` while the documented model yields `-1/2`; in general the
single-peak code value is the documented value divided by `γ⁴`. -/
theorem lorentzian_d2_extra_gamma4 :
    lorentzian_d2 [(1, 0, 2)] 0 = -(1 / 32) ∧
    lorentzianD2Claim [(1, 0, 2)] 0 = -(1 / 2) ∧
    ∀ A x0 gamma x : ℚ,
      lorentzian_d2 [(A, x0, gamma)] x = lorentzianD2Claim [(A, x0, gamma)] x / gamma ^ 4 := by
  refine ⟨by norm_num [lorentzian_d2], by norm_num [lorentzianD2Claim], ?_⟩
  intro A x0 gamma x
  simp only [lorentzian_d2, lorentzianD2Claim, List.foldl]
  rw [zero_add, zero_add, div_div]
  ring_nf

/-- C2 (counterexample): parsing the BioLogic scenario file
`CA_sample_01_CA.mpr` does not yield label `CA_sample_01`: the stated
stripping rule `_\d{2}_[A-Z]+$` removes the whole `_01_CA` tail. -/
theorem read_mpr_label_counterexample :
    (read_mpr_decoded [("<I>/mA", [1, 2, 3])] "CA_sample_01_CA.mpr").label
      ≠ some "CA_sample_01" := by
  decide

/-- C2 (amended): the scenario file yields `current_A = [0.001, 0.002,
0.003]` and `technique = "CA"` as claimed, but label `"CA_sample"` (the
trailing `_01_CA` is stripped in full). -/
theorem read_mpr_ca_scenario :
    (read_mpr_decoded [("<I>/mA", [1, 2, 3])] "CA_sample_01_CA.mpr").df.getCol "current_A"
        = some [1 / 1000, 2 / 1000, 3 / 1000] ∧
    (read_mpr_decoded [("<I>/mA", [1, 2, 3])] "CA_sample_01_CA.mpr").technique = some "CA" ∧
    (read_mpr_decoded [("<I>/mA", [1, 2, 3])] "CA_sample_01_CA.mpr").label = some "CA_sample" := by
  refine ⟨?_, by decide, by decide⟩
  norm_num [read_mpr_decoded, standardize_dataframe, lookupBioCol, BIOLOGIC_COLUMN_MAP,
    unitFactor, DataFrame.getCol, List.find?]
  decide

/-- C5 (counterexample): `delete_roi_config` has no in-use check: in
`sampleXasDb` the ROI `r` is referenced by one scan, yet deleting it
succeeds and removes the entry instead of returning the claimed `InUse`
error and leaving the collection unchanged. -/
theorem delete_roi_config_unguarded :
    (sampleXasDb.scans.filter (fun s => s.roi = "r")).length = 1 ∧
    delete_roi_config sampleXasDb "r"
      = (DeleteOutcome.ok, { sampleXasDb with roi_configs := [] }) := by
  constructor
  · rfl
  · rfl

/-- C5 (amended): deleting a `references` entry that is referenced by at
least one scan is refused with `InUse` carrying the count of referencing
scans, leaving the store unchanged; deleting a `roi_configs` entry that
is present succeeds unconditionally — scans referencing it are not
checked. -/
theorem delete_reference_guarded_roi_not :
    (∀ (db : XasDb) (name : String),
        0 < (db.scans.filter (fun s => s.reference_name = some name)).length →
        delete_reference db name
          = (DeleteOutcome.inUse
              (db.scans.filter (fun s => s.reference_name = some name)).length, db)) ∧
    (∀ (db : XasDb) (name : String),
        db.roi_configs.filter (fun c => c.name = name) ≠ [] →
        (delete_roi_config db name).1 = DeleteOutcome.ok) := by
  constructor
  · intro db name h
    have hne : ¬(db.scans.filter (fun s => s.reference_name = some name)).isEmpty := by
      rw [List.isEmpty_iff]
      intro he
      rw [he] at h
      exact absurd h (by simp)
    simp only [delete_reference]
    rw [if_neg hne]
  · intro db name h
    have hlt : (db.roi_configs.filter (fun c => decide (c.name ≠ name))).length
        < db.roi_configs.length := by
      obtain ⟨c, hc⟩ := List.exists_mem_of_ne_nil _ h
      have hcmem := List.of_mem_filter hc
      have hcname : c.name = name := by simpa using hcmem
      refine List.length_filter_lt_length_iff_exists.mpr ?_
      exact ⟨c, List.mem_of_mem_filter hc, by simp [hcname]⟩
    simp only [delete_roi_config]
    rw [if_neg (by omega)]

/-- C5 (witness): on `sampleXasDb`, deleting the referenced reference is
refused with count 1, and deleting the referenced ROI config still
succeeds. -/
theorem delete_reference_guarded_roi_not_witness :
    delete_reference sampleXasDb "ref1" = (DeleteOutcome.inUse 1, sampleXasDb) ∧
    (delete_roi_config sampleXasDb "r").1 = DeleteOutcome.ok := by
  constructor
  · have h := delete_reference_guarded_roi_not.1 sampleXasDb "ref1" (by decide)
    simpa using h
  · exact delete_reference_guarded_roi_not.2 sampleXasDb "r" (by simp [sampleXasDb])

/-- C6 (counterexample): a session last accessed at time 0 and probed at
exactly TTL = 24 hours is NOT treated as expired: `get_session` touches
and returns it (the map keeps the session), and `get_or_create_session`
hands back the same id rather than a fresh one. -/
theorem session_exact_ttl_counterexample :
    (get_session 24 sampleSessions "s").1
      = some { session_id := "s", created_at := 0, last_accessed := 24,
               datasets := [], file_metadata := [] } ∧
    (get_session 24 sampleSessions "s").2
      = [("s", { session_id := "s", created_at := 0, last_accessed := 24,
                 datasets := [], file_metadata := [] })] ∧
    (get_or_create_session 24 "fresh" sampleSessions (some "s")).1 = "s" := by
  have hexp : ({ session_id := "s", created_at := 0, last_accessed := 0,
                 datasets := [], file_metadata := [] } : SessionState).is_expired 24 = false := by
    simp [SessionState.is_expired, SESSION_TTL_HOURS]
  refine ⟨?_, ?_, ?_⟩ <;>
    simp [get_session, get_or_create_session, sampleSessions, alistLookup, alistUpdate, hexp]

/-- C6 (amended): expiry is strict: a session probed when
`now - last_accessed` equals the TTL exactly is still live —
`get_session` touches and returns it and `get_or_create_session` keeps
the same id — while strictly beyond the TTL `get_session` deletes the
session and returns `None`. -/
theorem session_ttl_strict :
    (∀ (sessions : Sessions) (sid : String) (s : SessionState) (now : ℚ),
        alistLookup sessions sid = some s →
        now - s.last_accessed = SESSION_TTL_HOURS →
        (get_session now sessions sid).1 = some { s with last_accessed := now } ∧
        (get_session now sessions sid).2
          = alistUpdate sessions sid { s with last_accessed := now } ∧
        (sid ≠ "" → ∀ fresh_id,
          (get_or_create_session now fresh_id sessions (some sid)).1 = sid)) ∧
    (∀ (sessions : Sessions) (sid : String) (s : SessionState) (now : ℚ),
        alistLookup sessions sid = some s →
        SESSION_TTL_HOURS < now - s.last_accessed →
        (get_session now sessions sid).1 = none ∧
        (get_session now sessions sid).2 = alistErase sessions sid) := by
  constructor
  · intro sessions sid s now hl ht
    have hexp : s.is_expired now = false := by
      simp only [SessionState.is_expired, decide_eq_false_iff_not, not_lt]
      linarith [ht]
    have h1 : (get_session now sessions sid).1 = some { s with last_accessed := now } := by
      simp [get_session, hl, hexp]
    refine ⟨h1, by simp [get_session, hl, hexp], ?_⟩
    intro hne fresh_id
    simp only [get_or_create_session, if_pos hne]
    rw [show get_session now sessions sid
        = ((get_session now sessions sid).1, (get_session now sessions sid).2) from rfl, h1]
  · intro sessions sid s now hl ht
    have hexp : s.is_expired now = true := by
      simp only [SessionState.is_expired, decide_eq_true_eq]
      linarith [ht]
    exact ⟨by simp [get_session, hl, hexp], by simp [get_session, hl, hexp]⟩

/-- C6 (witness): the strict-expiry theorem applied to the sample session
at `now = 24` (exactly TTL) and at `now = 25` (past TTL). -/
theorem session_ttl_strict_witness :
    ((get_session 24 sampleSessions "s").1
        = some { session_id := "s", created_at := 0, last_accessed := 24,
                 datasets := [], file_metadata := [] } ∧
      (get_session 24 sampleSessions "s").2
        = alistUpdate sampleSessions "s"
            { session_id := "s", created_at := 0, last_accessed := 24,
              datasets := [], file_metadata := [] } ∧
      ("s" ≠ "" → ∀ fresh_id,
        (get_or_create_session 24 fresh_id sampleSessions (some "s")).1 = "s")) ∧
    ((get_session 25 sampleSessions "s").1 = none ∧
      (get_session 25 sampleSessions "s").2 = alistErase sampleSessions "s") := by
  constructor
  · exact session_ttl_strict.1 sampleSessions "s"
      { session_id := "s", created_at := 0, last_accessed := 0,
        datasets := [], file_metadata := [] } 24 (by rfl) (by norm_num [SESSION_TTL_HOURS])
  · exact session_ttl_strict.2 sampleSessions "s"
      { session_id := "s", created_at := 0, last_accessed := 0,
        datasets := [], file_metadata := [] } 25 (by rfl) (by norm_num [SESSION_TTL_HOURS])

/-- Adding a fresh column name appends it at the end of the table. -/
theorem withColumn_of_not_mem (df : DataFrame) (name : String) (vals : List ℚ)
    (h : name ∉ df.columns) : df.withColumn name vals = df ++ [(name, vals)] := by
  induction df with
  | nil => rfl
  | cons cv rest ih =>
      have hne : cv.1 ≠ name := by
        intro he
        exact h (by simp [DataFrame.columns, he])
      have hrest : name ∉ DataFrame.columns rest := by
        intro hm
        exact h (by simp [DataFrame.columns] at hm ⊢; exact Or.inr hm)
      calc DataFrame.withColumn (cv :: rest) name vals
          = cv :: DataFrame.withColumn rest name vals := by
            simp [DataFrame.withColumn, hne]
        _ = cv :: (rest ++ [(name, vals)]) := by rw [ih hrest]
        _ = (cv :: rest) ++ [(name, vals)] := rfl

/-- C9 (counterexample): transforms are claimed to leave every input
column unchanged, but `ir_compensate` on a dataset that already holds a
`potential_ir_corrected_V` column overwrites that column's values (here
`[5]` becomes `[-9]`). -/
theorem ir_compensate_overwrites :
    sampleIrDataset.df.getCol "potential_ir_corrected_V" = some [5] ∧
    (ir_compensate sampleIrDataset 10).map (fun d => d.df.getCol "potential_ir_corrected_V")
      = Except.ok (some [-9]) := by
  constructor
  · rfl
  · norm_num [ir_compensate, sampleIrDataset, copy_dataset, DataFrame.getCol,
      DataFrame.withColumn, Except.map]
    decide

/-- C9 (amended): when the derived column name is not already present in
the input, each of the four transforms returns a new dataset equal to the
input with the derived canonical column appended at the end — so every
input column keeps its values — and the derived values satisfy the stated
formulas; in particular `ir_compensate` appends
`potential_ir_corrected_V = potential_V - current_A * R` row by row.
When the derived name is already a column, it is overwritten instead
(see the counterexample). -/
theorem transforms_append_derived_column :
    (∀ (ds : EchemDataset) (from_ref to_ref : String) (vf vt : ℚ) (vals : List ℚ),
        lookupRef from_ref = some vf → lookupRef to_ref = some vt →
        ds.df.getCol "potential_V" = some vals →
        refColName to_ref ∉ ds.df.columns →
        convert_reference ds from_ref to_ref
          = Except.ok (copy_dataset ds
              (ds.df ++ [(refColName to_ref, vals.map (fun x => x + (vf - vt)))]))) ∧
    (∀ (ds : EchemDataset) (r : ℚ) (vs is' : List ℚ),
        ds.df.getCol "potential_V" = some vs →
        ds.df.getCol "current_A" = some is' →
        "potential_ir_corrected_V" ∉ ds.df.columns →
        ir_compensate ds r
          = Except.ok (copy_dataset ds
              (ds.df ++ [("potential_ir_corrected_V",
                List.zipWith (fun v i => v - i * r) vs is')]))) ∧
    (∀ (ds : EchemDataset) (area : ℚ) (vals : List ℚ),
        ds.df.getCol "current_A" = some vals →
        "current_density_A_cm2" ∉ ds.df.columns →
        normalize_by_area ds area
          = Except.ok (copy_dataset ds
              (ds.df ++ [("current_density_A_cm2", vals.map (fun x => x / area))]))) ∧
    (∀ (ds : EchemDataset) (mass : ℚ) (vals : List ℚ),
        ds.df.getCol "current_A" = some vals →
        "current_A_g" ∉ ds.df.columns →
        normalize_by_mass ds mass
          = Except.ok (copy_dataset ds
              (ds.df ++ [("current_A_g", vals.map (fun x => x / mass))]))) := by
  refine ⟨?_, ?_, ?_, ?_⟩
  · intro ds from_ref to_ref vf vt vals hf ht hv hfresh
    simp only [convert_reference, hf, ht, hv]
    rw [withColumn_of_not_mem _ _ _ hfresh]
  · intro ds r vs is' hv hi hfresh
    simp only [ir_compensate, hv, hi]
    rw [withColumn_of_not_mem _ _ _ hfresh]
  · intro ds area vals hv hfresh
    simp only [normalize_by_area, hv]
    rw [withColumn_of_not_mem _ _ _ hfresh]
  · intro ds mass vals hv hfresh
    simp only [normalize_by_mass, hv]
    rw [withColumn_of_not_mem _ _ _ hfresh]

/-- C9 (witness): the four transforms applied to the spec §8 scenario
table (`potential_V = [1, 1.2]`, `current_A = [0.01, 0.02]`); in
particular `ir_compensate` with `R = 10` appends
`potential_ir_corrected_V = [0.9, 1.0]`. -/
theorem transforms_append_derived_column_witness :
    convert_reference sampleEcDataset "SHE" "SCE"
      = Except.ok (copy_dataset sampleEcDataset
          (sampleEcDataset.df ++ [(refColName "SCE",
            [1, 12 / 10].map (fun x => x + ((0 : ℚ) - 244 / 1000)))])) ∧
    ir_compensate sampleEcDataset 10
      = Except.ok (copy_dataset sampleEcDataset
          (sampleEcDataset.df ++ [("potential_ir_corrected_V",
            List.zipWith (fun v i => v - i * (10 : ℚ)) [1, 12 / 10] [1 / 100, 2 / 100])])) ∧
    normalize_by_area sampleEcDataset 2
      = Except.ok (copy_dataset sampleEcDataset
          (sampleEcDataset.df ++ [("current_density_A_cm2",
            [1 / 100, 2 / 100].map (fun x => x / (2 : ℚ)))])) ∧
    normalize_by_mass sampleEcDataset 4
      = Except.ok (copy_dataset sampleEcDataset
          (sampleEcDataset.df ++ [("current_A_g",
            [1 / 100, 2 / 100].map (fun x => x / (4 : ℚ)))])) := by
  refine ⟨?_, ?_, ?_, ?_⟩
  · exact transforms_append_derived_column.1 sampleEcDataset "SHE" "SCE" 0 (244 / 1000)
      [1, 12 / 10] (by rfl) (by rfl) (by rfl) (by decide)
  · exact transforms_append_derived_column.2.1 sampleEcDataset 10 [1, 12 / 10]
      [1 / 100, 2 / 100] (by rfl) (by rfl) (by decide)
  · exact transforms_append_derived_column.2.2.1 sampleEcDataset 2 [1 / 100, 2 / 100]
      (by rfl) (by decide)
  · exact transforms_append_derived_column.2.2.2 sampleEcDataset 4 [1 / 100, 2 / 100]
      (by rfl) (by decide)

/-- Looking up the key just written returns the written value. -/
theorem alistLookup_update_self {α : Type} (l : List (String × α)) (k : String) (v : α) :
    alistLookup (alistUpdate l k v) k = some v := by
  induction l with
  | nil => simp [alistUpdate, alistLookup]
  | cons kv rest ih =>
      by_cases h : kv.1 = k
      · simp [alistUpdate, alistLookup, h]
      · simp [alistUpdate, alistLookup, h, ih]

/-- Writing one key leaves lookups of other keys unchanged. -/
theorem alistLookup_update_ne {α : Type} (l : List (String × α)) (k k' : String) (v : α)
    (h : k' ≠ k) : alistLookup (alistUpdate l k v) k' = alistLookup l k' := by
  induction l with
  | nil => simp [alistUpdate, alistLookup, Ne.symm h]
  | cons kv rest ih =>
      by_cases hk : kv.1 = k
      · simp [alistUpdate, alistLookup, hk, Ne.symm h]
      · simp only [alistUpdate, hk, if_false]
        by_cases hk' : kv.1 = k'
        · simp [alistLookup, hk']
        · simp [alistLookup, hk', ih]

/-- One `session_export` iteration leaves the metadata entries of other
filenames untouched. -/
theorem exportStep_lookup_ne (fm : FileMeta) (d : EchemDataset) (f : String)
    (h : d.filename ≠ f) : alistLookup (exportStep fm d).2.2 f = alistLookup fm f := by
  simp only [exportStep]
  by_cases hl : alistHasKey ((alistLookup fm d.filename).getD []) "label"
  · simp only [hl, if_true]
    exact alistLookup_update_ne _ _ _ _ (fun he => h he.symm)
  · simp [hl]

/-- The remaining `session_export` iterations leave the metadata entry of
a filename not among their datasets untouched. -/
theorem sessionExportCore_lookup_not_mem (datasets : List EchemDataset) (fm : FileMeta)
    (f : String) (h : f ∉ datasets.map (fun d => d.filename)) :
    alistLookup (sessionExportCore datasets fm).2.2 f = alistLookup fm f := by
  induction datasets generalizing fm with
  | nil => rfl
  | cons d rest ih =>
      have hdf : d.filename ≠ f := by
        intro he
        exact h (by simp [he])
      have hrest : f ∉ rest.map (fun d => d.filename) := by
        intro hm
        exact h (by simp [hm])
      calc alistLookup (sessionExportCore (d :: rest) fm).2.2 f
          = alistLookup (sessionExportCore rest (exportStep fm d).2.2).2.2 f := rfl
        _ = alistLookup (exportStep fm d).2.2 f := ih _ hrest
        _ = alistLookup fm f := exportStep_lookup_ne fm d f hdf

/-- `csv_export` hands the caller's metadata map back unchanged. -/
theorem csvExportCore_fm (datasets : List EchemDataset) (fm : FileMeta) :
    (csvExportCore datasets fm).2.2 = fm := by
  induction datasets generalizing fm with
  | nil => rfl
  | cons d rest ih => exact ih _

/-- C10: `session_export` mutates its `file_metadata` argument — for every
dataset (filenames distinct) whose entry carries a `label` key, the call
removes that key from the caller's map — whereas `csv_export`, which
copies each entry before popping, leaves the caller's map unchanged. -/
theorem session_export_pops_label :
    (∀ (datasets : List EchemDataset) (fm : FileMeta),
        (datasets.map (fun d => d.filename)).Nodup →
        ∀ ds ∈ datasets, ∀ m, alistLookup fm ds.filename = some m →
          alistHasKey m "label" = true →
          alistLookup (session_export datasets fm).2 ds.filename
            = some (alistErase m "label")) ∧
    (∀ (datasets : List EchemDataset) (fm : FileMeta),
        (csv_export datasets fm).2 = fm) := by
  constructor
  · intro datasets
    induction datasets with
    | nil => intro fm _ ds hds; exact absurd hds (by simp)
    | cons d rest ih =>
        intro fm hnd ds hds m hm hkey
        have hndrest : (rest.map (fun d => d.filename)).Nodup :=
          (List.nodup_cons.mp hnd).2
        have hdnotin : d.filename ∉ rest.map (fun d => d.filename) :=
          (List.nodup_cons.mp hnd).1
        rcases List.mem_cons.mp hds with he | hrest
        · subst he
          have hstep : alistLookup (exportStep fm ds).2.2 ds.filename
              = some (alistErase m "label") := by
            simp only [exportStep, hm, Option.getD_some, hkey, if_true]
            exact alistLookup_update_self _ _ _
          calc alistLookup (session_export (ds :: rest) fm).2 ds.filename
              = alistLookup (sessionExportCore rest (exportStep fm ds).2.2).2.2
                  ds.filename := rfl
            _ = alistLookup (exportStep fm ds).2.2 ds.filename :=
                sessionExportCore_lookup_not_mem rest _ _ hdnotin
            _ = some (alistErase m "label") := hstep
        · have hne : d.filename ≠ ds.filename := by
            intro he
            exact hdnotin (he ▸ (List.mem_map.mpr ⟨ds, hrest, rfl⟩))
          have hm' : alistLookup (exportStep fm d).2.2 ds.filename = some m := by
            rw [exportStep_lookup_ne fm d ds.filename hne]
            exact hm
          exact ih _ hndrest ds hrest m hm' hkey
  · intro datasets fm
    exact csvExportCore_fm datasets fm

/-- C10 (witness): exporting `sampleEcDataset` (filename `f`) with a
metadata map whose `f` entry holds `note` and `label` columns removes the
`label` key from the caller's map; `csv_export` leaves it in place. -/
theorem session_export_pops_label_witness :
    alistLookup (session_export [sampleEcDataset] sampleFileMetaLabel).2 "f"
      = some (alistErase [("note", "x"), ("label", "M")] "label") ∧
    (csv_export [sampleEcDataset] sampleFileMetaLabel).2 = sampleFileMetaLabel := by
  constructor
  · exact session_export_pops_label.1 [sampleEcDataset] sampleFileMetaLabel (by decide)
      sampleEcDataset (by simp) [("note", "x"), ("label", "M")] (by rfl) (by rfl)
  · exact session_export_pops_label.2 [sampleEcDataset] sampleFileMetaLabel

/-- A successful column lookup means the name is among the columns. -/
theorem getCol_mem (df : DataFrame) (n : String) (v : List ℚ)
    (h : df.getCol n = some v) : n ∈ df.columns := by
  induction df with
  | nil => exact absurd h (by simp [DataFrame.getCol])
  | cons cv rest ih =>
      by_cases he : cv.1 = n
      · simp [DataFrame.columns, he]
      · simp only [DataFrame.getCol, he, if_false] at h
        exact List.mem_cons_of_mem _ (ih h)

/-- The first-minimum scan only fails on the empty list. -/
theorem argminAbsSnd_isSome (l : List (ℚ × ℚ)) (h : l ≠ []) :
    (argminAbsSnd l).isSome = true := by
  match l with
  | [] => exact absurd rfl h
  | p :: rest =>
      simp only [argminAbsSnd]
      cases argminAbsSnd rest with
      | none => rfl
      | some q =>
          by_cases hle : |p.2| ≤ |q.2| <;> simp [hle]

/-- Sorting a nonempty list yields a nonempty list. -/
theorem sortByRe_ne_nil (l : List (ℚ × ℚ)) (h : l ≠ []) : sortByRe l ≠ [] := by
  intro hs
  have hp : (sortByRe l).Perm l := List.perm_insertionSort (fun p q : ℚ × ℚ => p.1 ≤ q.1) l
  rw [hs] at hp
  exact h hp.symm.eq_nil

/-- C3 (counterexample): on a table with the two impedance columns but no
rows, `find_hf_intercept` does not return `None`: the numpy `argmin` of
the empty fallback array raises `ValueError`. -/
theorem find_hf_intercept_empty_raises :
    find_hf_intercept [("z_real_Ohm", []), ("z_imag_Ohm", [])]
      = Except.error "attempt to get argmin of an empty sequence" ∧
    ∀ r : Option ℚ,
      find_hf_intercept [("z_real_Ohm", []), ("z_imag_Ohm", [])] ≠ Except.ok r := by
  have h : find_hf_intercept [("z_real_Ohm", []), ("z_imag_Ohm", [])]
      = Except.error "attempt to get argmin of an empty sequence" := rfl
  refine ⟨h, ?_⟩
  intro r hr
  rw [h] at hr
  exact Except.noConfusion hr

/-- C3 (amended): on every table holding both impedance columns with at
least one row, `find_hf_intercept` computes exactly the described
procedure (sort ascending by `z_real_Ohm`, `y = -z_imag_Ohm`, first
strict sign change interpolated, else the minimal-`|y|` fallback within
1 Ohm, else `None`); on the empty table it raises instead.  On the
scenario points `(5,-2), (6,-1), (7,0.5), (8,1.5)` the result is exactly
`20/3 ≈ 6.667`. -/
theorem find_hf_intercept_described :
    (∀ (df : DataFrame) (re im : List ℚ),
        df.getCol "z_real_Ohm" = some re → df.getCol "z_imag_Ohm" = some im →
        re ≠ [] → im.length = re.length →
        find_hf_intercept df = Except.ok (hfInterceptSpec re im)) ∧
    find_hf_intercept [("z_real_Ohm", [5, 6, 7, 8]), ("z_imag_Ohm", [-2, -1, 1 / 2, 3 / 2])]
      = Except.ok (some (20 / 3)) ∧
    |(20 : ℚ) / 3 - 6667 / 1000| < 1 / 1000 := by
  refine ⟨?_, ?_, by rw [abs_sub_lt_iff]; constructor <;> norm_num⟩
  · intro df re im hre him hne hlen
    have h1 : "z_real_Ohm" ∈ df.columns := getCol_mem _ _ _ hre
    have h2 : "z_imag_Ohm" ∈ df.columns := getCol_mem _ _ _ him
    have hnonempty : sortByRe (re.zip (im.map Neg.neg)) ≠ [] := by
      apply sortByRe_ne_nil
      intro hz
      have : re.length = 0 := by
        have hzl := congrArg List.length hz
        simpa [List.length_zip, hlen] using hzl
      exact hne (List.length_eq_zero.mp this)
    simp only [find_hf_intercept, hfInterceptSpec, hre, him, Option.getD_some,
      if_pos (And.intro h1 h2)]
    cases hc : firstCrossing (sortByRe (re.zip (im.map Neg.neg))) with
    | some r => rfl
    | none =>
        cases ha : argminAbsSnd (sortByRe (re.zip (im.map Neg.neg))) with
        | none =>
            have := argminAbsSnd_isSome _ hnonempty
            rw [ha] at this
            exact absurd this (by simp)
        | some p =>
            by_cases hlt : |p.2| < 1 <;> simp [hlt]
  · norm_num [find_hf_intercept, DataFrame.columns, DataFrame.getCol, sortByRe,
      List.insertionSort, List.orderedInsert, firstCrossing, argminAbsSnd]

/-- C3 (witness): the description theorem applied to the scenario table. -/
theorem find_hf_intercept_described_witness :
    find_hf_intercept [("z_real_Ohm", [5, 6, 7, 8]), ("z_imag_Ohm", [-2, -1, 1 / 2, 3 / 2])]
      = Except.ok (hfInterceptSpec [5, 6, 7, 8] [-2, -1, 1 / 2, 3 / 2]) :=
  find_hf_intercept_described.1 _ [5, 6, 7, 8] [-2, -1, 1 / 2, 3 / 2]
    (by rfl) (by rfl) (by simp) (by rfl)

instance : IsTotal (ℚ × ℚ) (fun p q => p.1 ≤ q.1) :=
  ⟨fun a b => le_total a.1 b.1⟩

instance : IsTrans (ℚ × ℚ) (fun p q => p.1 ≤ q.1) :=
  ⟨fun _ _ _ h1 h2 => le_trans h1 h2⟩

instance : IsAntisymm (ℚ × ℚ) (fun p q => p.1 < q.1) :=
  ⟨fun _ _ h1 h2 => absurd (h1.trans h2) (lt_irrefl _)⟩

/-- Sorting by the first component is a function of the multiset of pairs
alone when the first components are pairwise distinct. -/
theorem sortByRe_eq_of_perm (l1 l2 : List (ℚ × ℚ)) (hp : l1.Perm l2)
    (hnd : (l1.map Prod.fst).Nodup) : sortByRe l1 = sortByRe l2 := by
  have hp1 : (sortByRe l1).Perm l1 := List.perm_insertionSort _ l1
  have hp2 : (sortByRe l2).Perm l2 := List.perm_insertionSort _ l2
  have hs1 : (sortByRe l1).Sorted (fun p q : ℚ × ℚ => p.1 ≤ q.1) :=
    List.sorted_insertionSort _ l1
  have hs2 : (sortByRe l2).Sorted (fun p q : ℚ × ℚ => p.1 ≤ q.1) :=
    List.sorted_insertionSort _ l2
  have hperm : (sortByRe l1).Perm (sortByRe l2) := hp1.trans (hp.trans hp2.symm)
  have hnd1 : ((sortByRe l1).map Prod.fst).Nodup :=
    ((hp1.map Prod.fst).nodup_iff).mpr hnd
  have hnd2 : ((sortByRe l2).map Prod.fst).Nodup :=
    ((hperm.map Prod.fst).nodup_iff).mp hnd1
  have hstrict : ∀ (l : List (ℚ × ℚ)),
      l.Sorted (fun p q : ℚ × ℚ => p.1 ≤ q.1) → (l.map Prod.fst).Nodup →
      l.Pairwise (fun p q : ℚ × ℚ => p.1 < q.1) := by
    intro l hs hnd'
    have hne : l.Pairwise (fun p q : ℚ × ℚ => p.1 ≠ q.1) := List.pairwise_map.mp hnd'
    exact (hs.and hne).imp (fun hw => lt_of_le_of_ne hw.1 hw.2)
  exact List.eq_of_perm_of_sorted hperm
    (hstrict _ hs1 hnd1) (hstrict _ hs2 hnd2)

/-- C8 (counterexample): permutation invariance fails when `z_real_Ohm`
has ties: the tables `re = [1,1,2], im = [-1,-2,1]` and its row
permutation `im = [-2,-1,1]` give intercepts `5/3` and `3/2`. -/
theorem find_hf_intercept_tie_counterexample :
    (List.zip ([1, 1, 2] : List ℚ) ([-1, -2, 1] : List ℚ)).Perm
      (List.zip ([1, 1, 2] : List ℚ) ([-2, -1, 1] : List ℚ)) ∧
    find_hf_intercept [("z_real_Ohm", [1, 1, 2]), ("z_imag_Ohm", [-1, -2, 1])]
      = Except.ok (some (5 / 3)) ∧
    find_hf_intercept [("z_real_Ohm", [1, 1, 2]), ("z_imag_Ohm", [-2, -1, 1])]
      = Except.ok (some (3 / 2)) ∧
    (5 : ℚ) / 3 ≠ 3 / 2 := by
  refine ⟨List.Perm.swap _ _ _, ?_, ?_, by norm_num⟩ <;>
    norm_num [find_hf_intercept, DataFrame.columns, DataFrame.getCol, sortByRe,
      List.insertionSort, List.orderedInsert, firstCrossing, argminAbsSnd]

/-- C8 (amended): `find_hf_intercept` is invariant under row permutations
of the input table whenever the `z_real_Ohm` values carry no ties (with
ties, the stable order of equal keys depends on the input order and the
result can change — see the counterexample). -/
theorem find_hf_intercept_perm_invariant :
    ∀ (df1 df2 : DataFrame) (re1 im1 re2 im2 : List ℚ),
      df1.getCol "z_real_Ohm" = some re1 → df1.getCol "z_imag_Ohm" = some im1 →
      df2.getCol "z_real_Ohm" = some re2 → df2.getCol "z_imag_Ohm" = some im2 →
      (re1.zip (im1.map Neg.neg)).Perm (re2.zip (im2.map Neg.neg)) →
      ((re1.zip (im1.map Neg.neg)).map Prod.fst).Nodup →
      find_hf_intercept df1 = find_hf_intercept df2 := by
  intro df1 df2 re1 im1 re2 im2 hre1 him1 hre2 him2 hp hnd
  have hsort := sortByRe_eq_of_perm _ _ hp hnd
  have h11 : "z_real_Ohm" ∈ df1.columns := getCol_mem _ _ _ hre1
  have h12 : "z_imag_Ohm" ∈ df1.columns := getCol_mem _ _ _ him1
  have h21 : "z_real_Ohm" ∈ df2.columns := getCol_mem _ _ _ hre2
  have h22 : "z_imag_Ohm" ∈ df2.columns := getCol_mem _ _ _ him2
  simp only [find_hf_intercept, hre1, him1, hre2, him2, Option.getD_some,
    if_pos (And.intro h11 h12), if_pos (And.intro h21 h22)]
  rw [hsort]

/-- C8 (witness): invariance on the tie-free scenario table and a row
permutation of it. -/
theorem find_hf_intercept_perm_invariant_witness :
    find_hf_intercept [("z_real_Ohm", [5, 6, 7, 8]), ("z_imag_Ohm", [-2, -1, 1 / 2, 3 / 2])]
      = find_hf_intercept
          [("z_real_Ohm", [6, 5, 8, 7]), ("z_imag_Ohm", [-1, -2, 3 / 2, 1 / 2])] := by
  refine find_hf_intercept_perm_invariant _ _ [5, 6, 7, 8] [-2, -1, 1 / 2, 3 / 2]
    [6, 5, 8, 7] [-1, -2, 3 / 2, 1 / 2] rfl rfl rfl rfl ?_ (by norm_num)
  exact (List.Perm.swap _ _ _).trans
    (List.Perm.cons _ (List.Perm.cons _ (List.Perm.swap _ _ _)))

/-- Python's `[x for j, x in enumerate(l) if j != i]` keeps everything
when the banned index lies below the enumeration start. -/
theorem enumFrom_filter_ne_of_lt {α : Type} (l : List α) :
    ∀ (n m : ℕ), m < n →
      (List.enumFrom n l).filter (fun q => q.1 ≠ m) = List.enumFrom n l := by
  induction l with
  | nil => intro n m _; rfl
  | cons a l ih =>
      intro n m hm
      rw [List.enumFrom_cons, List.filter_cons]
      rw [if_pos (decide_eq_true (show n ≠ m by omega))]
      rw [ih (n + 1) m (by omega)]

/-- Python's `[x for j, x in enumerate(l) if j != i]` (enumeration
starting at `n`, banned index `n + i`) is `l` with index `i` erased. -/
theorem enumFrom_filter_ne_map_snd {α : Type} (l : List α) :
    ∀ (n i : ℕ),
      ((List.enumFrom n l).filter (fun q => q.1 ≠ n + i)).map Prod.snd = l.eraseIdx i := by
  induction l with
  | nil => intro n i; rfl
  | cons a l ih =>
      intro n i
      rw [List.enumFrom_cons, List.filter_cons]
      match i with
      | 0 =>
          rw [if_neg (by simp)]
          rw [enumFrom_filter_ne_of_lt l (n + 1) (n + 0) (by omega), List.enumFrom_map_snd,
            List.eraseIdx_cons_zero]
      | j + 1 =>
          rw [if_pos (decide_eq_true (show n ≠ n + (j + 1) by omega)), List.map_cons]
          have hnj : n + (j + 1) = (n + 1) + j := by omega
          rw [hnj, ih (n + 1) j, List.eraseIdx_cons_succ]

/-- The `enumerate`-filter of `contribution_analysis` at index `i`. -/
theorem enum_filter_ne_map_snd {α : Type} (l : List α) (i : ℕ) :
    ((l.enum.filter (fun q => q.1 ≠ i)).map Prod.snd) = l.eraseIdx i := by
  have h := enumFrom_filter_ne_map_snd l 0 i
  rw [Nat.zero_add] at h
  rw [List.enum_eq_enumFrom, h]

/-- C7 (amended): for an averaged result built from `n >= 2` normalized
curves, the contribution list has length `n_scans`, and entry `i` reports
the scan's key, `mean_std_without` = the mean over bins of the per-bin
standard deviation of the remaining `n-1` curves, and `improvement` = the
baseline mean sigma minus that value.  (For `n = 1` the code returns the
empty list instead -- see the counterexample.) -/
theorem contribution_analysis_described :
    ∀ (scans : List NormScanRec) (a : AveragedData),
      averageScans scans = some a →
      2 ≤ scans.length →
      (contribution_analysis a).length = a.n_scans ∧
      mean_std a = meanR (stdAxis (scans.map (fun s => s.norm))) ∧
      ∀ (i : ℕ) (hi : i < scans.length),
        (contribution_analysis a).get? i
          = some { scan_key := (scans.get ⟨i, hi⟩).scan_key
                   mean_std_without :=
                     meanR (stdAxis ((scans.map (fun s => s.norm)).eraseIdx i))
                   improvement :=
                     meanR (stdAxis (scans.map (fun s => s.norm)))
                       - meanR (stdAxis ((scans.map (fun s => s.norm)).eraseIdx i)) } := by
  intro scans a ha hlen
  match scans, ha with
  | first :: rest, ha =>
      simp only [averageScans, Option.some.injEq] at ha
      subst ha
      have hstd : mean_std
          { energy := first.energy
            norm := meanAxis ((first :: rest).map (fun s => s.norm))
            std := if 1 < ((first :: rest).map (fun s => s.norm)).length
                   then stdAxis ((first :: rest).map (fun s => s.norm))
                   else List.replicate (meanAxis ((first :: rest).map (fun s => s.norm))).length 0
            e0 := meanR ((first :: rest).map (fun s => s.e0))
            n_scans := (first :: rest).length
            scan_list := (first :: rest).map (fun s => s.scan_key)
            individual_norms := some ((first :: rest).map (fun s => s.norm)) }
          = meanR (stdAxis ((first :: rest).map (fun s => s.norm))) := by
        simp only [mean_std]
        rw [if_pos (by simp at hlen ⊢; omega)]
      refine ⟨?_, hstd, ?_⟩
      · simp only [contribution_analysis]
        rw [if_neg (by simp at hlen ⊢; omega)]
        simp
      · intro i hi
        simp only [contribution_analysis]
        rw [if_neg (by simp at hlen ⊢; omega)]
        rw [List.get?_map, List.get?_enum]
        have hget : ((first :: rest).map (fun s => s.scan_key)).get? i
            = some ((first :: rest).get ⟨i, hi⟩).scan_key := by
          rw [List.get?_map, List.get?_eq_get hi]
          rfl
        rw [hget]
        simp only [Option.map_some']
        rw [enum_filter_ne_map_snd]
        have hpos : 0 < (((first :: rest).map (fun s => s.norm)).eraseIdx i).length := by
          rw [List.length_eraseIdx]
          simp only [List.length_map]
          rw [if_pos hi]
          simp only [List.length_cons] at hlen ⊢
          omega
        rw [if_pos hpos]
        rw [hstd]

/-- C7 (counterexample): an averaged result built from a single
normalized curve has `n_scans = 1`, but its leave-one-out contribution
list is empty (`len(individual_norms) < 2` short-circuits), not of
length `n_scans`. -/
theorem contribution_analysis_single_scan :
    (averageScans sampleNormScans1).map
        (fun a => ((contribution_analysis a).length, a.n_scans))
      = some (0, 1) := by
  simp [averageScans, sampleNormScans1, contribution_analysis]

/-- C7 (witness): the description applied to the two-scan sample. -/
theorem contribution_analysis_described_witness :
    (contribution_analysis averagedOfSample2).length = averagedOfSample2.n_scans ∧
    mean_std averagedOfSample2
      = meanR (stdAxis (sampleNormScans2.map (fun s => s.norm))) ∧
    ∀ (i : ℕ) (hi : i < sampleNormScans2.length),
      (contribution_analysis averagedOfSample2).get? i
        = some { scan_key := (sampleNormScans2.get ⟨i, hi⟩).scan_key
                 mean_std_without :=
                   meanR (stdAxis ((sampleNormScans2.map (fun s => s.norm)).eraseIdx i))
                 improvement :=
                   meanR (stdAxis (sampleNormScans2.map (fun s => s.norm)))
                     - meanR (stdAxis ((sampleNormScans2.map (fun s => s.norm)).eraseIdx i)) } :=
  contribution_analysis_described sampleNormScans2 averagedOfSample2 rfl (by decide)

/-- Archive data paths are injective in the filename. -/
theorem dataPath_inj (f1 f2 : String) (h : dataPath f1 = dataPath f2) : f1 = f2 := by
  have hd := congrArg String.data h
  simp only [dataPath, String.data_append] at hd
  rw [List.append_assoc, List.append_assoc] at hd
  have h1 := List.append_cancel_left hd
  have h2 := List.append_cancel_right h1
  cases f1
  cases f2
  simp only at h2
  rw [h2]

/-- The file entry written for a dataset depends on the metadata map only
through the dataset's own entry. -/
theorem fileEntryOf_congr (fm1 fm2 : FileMeta) (d : EchemDataset)
    (h : alistLookup fm1 d.filename = alistLookup fm2 d.filename) :
    fileEntryOf fm1 d = fileEntryOf fm2 d := by
  simp only [fileEntryOf, exportStep, h]

/-- With distinct filenames, the file registry written by `session_export`
is the per-dataset entry computed against the initial metadata map. -/
theorem sessionExportCore_files (datasets : List EchemDataset) (fm : FileMeta)
    (hnd : (datasets.map (fun d => d.filename)).Nodup) :
    (sessionExportCore datasets fm).1 = datasets.map (fileEntryOf fm) := by
  induction datasets generalizing fm with
  | nil => rfl
  | cons d rest ih =>
      have hdnotin : d.filename ∉ rest.map (fun d => d.filename) :=
        (List.nodup_cons.mp hnd).1
      have hndrest := (List.nodup_cons.mp hnd).2
      calc (sessionExportCore (d :: rest) fm).1
          = fileEntryOf fm d :: (sessionExportCore rest (exportStep fm d).2.2).1 := rfl
        _ = fileEntryOf fm d :: rest.map (fileEntryOf (exportStep fm d).2.2) := by
            rw [ih _ hndrest]
        _ = fileEntryOf fm d :: rest.map (fileEntryOf fm) := by
            refine congrArg _ (List.map_congr_left ?_)
            intro e he
            refine fileEntryOf_congr _ _ e (exportStep_lookup_ne fm d e.filename ?_)
            intro hce
            exact hdnotin (hce ▸ List.mem_map.mpr ⟨e, he, rfl⟩)

/-- The data members written by `session_export`. -/
theorem sessionExportCore_data (datasets : List EchemDataset) (fm : FileMeta) :
    (sessionExportCore datasets fm).2.1
      = datasets.map (fun d => (dataPath d.filename, d.df)) := by
  induction datasets generalizing fm with
  | nil => rfl
  | cons d rest ih =>
      calc (sessionExportCore (d :: rest) fm).2.1
          = (dataPath d.filename, d.df)
              :: (sessionExportCore rest (exportStep fm d).2.2).2.1 := rfl
        _ = (dataPath d.filename, d.df)
              :: rest.map (fun d => (dataPath d.filename, d.df)) := by rw [ih]

/-- With distinct filenames, looking a dataset's archive path up in the
written data members finds its own table. -/
theorem lookup_dataMap (datasets : List EchemDataset)
    (hnd : (datasets.map (fun d => d.filename)).Nodup) :
    ∀ d ∈ datasets,
      alistLookup (datasets.map (fun d => (dataPath d.filename, d.df)))
        (dataPath d.filename) = some d.df := by
  induction datasets with
  | nil => intro d hd; exact absurd hd (by simp)
  | cons d0 rest ih =>
      intro d hd
      have hdnotin : d0.filename ∉ rest.map (fun d => d.filename) :=
        (List.nodup_cons.mp hnd).1
      rcases List.mem_cons.mp hd with he | hrest
      · subst he
        simp [alistLookup]
      · have hne : dataPath d0.filename ≠ dataPath d.filename := by
          intro hc
          exact hdnotin ((dataPath_inj _ _ hc) ▸ List.mem_map.mpr ⟨d, hrest, rfl⟩)
        calc alistLookup ((d0 :: rest).map (fun d => (dataPath d.filename, d.df)))
              (dataPath d.filename)
            = alistLookup (rest.map (fun d => (dataPath d.filename, d.df)))
                (dataPath d.filename) := by
              simp only [List.map_cons, alistLookup, hne, if_false]
          _ = some d.df := ih (List.nodup_cons.mp hnd).2 d hrest

/-- One import iteration on an entry written by `session_export`, when
the entry's data path resolves: it rebuilds `importedDataset` and merges
`mergedCustom` into the metadata accumulator. -/
theorem importStep_on_entry (zdata : List (String × DataFrame))
    (acc : List EchemDataset × FileMeta) (fm : FileMeta) (d : EchemDataset)
    (h : alistLookup zdata (dataPath d.filename) = some d.df) :
    importStep zdata acc (fileEntryOf fm d)
      = (acc.1 ++ [importedDataset fm d],
         if (mergedCustom fm d).isEmpty then acc.2
         else alistUpdate acc.2 d.filename (mergedCustom fm d)) := by
  by_cases hasL : alistHasKey ((alistLookup fm d.filename).getD []) "label"
  · simp only [importStep, fileEntryOf, exportStep, importedDataset, mergedCustom,
      hasL, h, Option.isSome_some, Option.getD_some]
    simp [h]
  · simp only [importStep, fileEntryOf, exportStep, importedDataset, mergedCustom,
      hasL, h, Option.isSome_some, Option.getD_some]
    simp [h]

/-- The import fold rebuilds exactly the round-tripped datasets in
order. -/
theorem import_fold_fst (zdata : List (String × DataFrame)) (fm : FileMeta) :
    ∀ (ds : List EchemDataset) (acc : List EchemDataset × FileMeta),
      (∀ d ∈ ds, alistLookup zdata (dataPath d.filename) = some d.df) →
      ((ds.map (fileEntryOf fm)).foldl (importStep zdata) acc).1
        = acc.1 ++ ds.map (importedDataset fm) := by
  intro ds
  induction ds with
  | nil => intro acc _; simp
  | cons d rest ih =>
      intro acc hsub
      rw [List.map_cons, List.foldl_cons,
        importStep_on_entry zdata acc fm d (hsub d (by simp))]
      rw [ih _ (fun e he => hsub e (by simp [he]))]
      simp

/-- The import fold leaves metadata entries of filenames outside the
imported list untouched. -/
theorem import_fold_snd_frame (zdata : List (String × DataFrame)) (fm : FileMeta) :
    ∀ (ds : List EchemDataset) (acc : List EchemDataset × FileMeta) (f : String),
      f ∉ ds.map (fun d => d.filename) →
      (∀ d ∈ ds, alistLookup zdata (dataPath d.filename) = some d.df) →
      alistLookup ((ds.map (fileEntryOf fm)).foldl (importStep zdata) acc).2 f
        = alistLookup acc.2 f := by
  intro ds
  induction ds with
  | nil => intro acc f _ _; rfl
  | cons d rest ih =>
      intro acc f hf hsub
      have hne : f ≠ d.filename := by
        intro he
        exact hf (by simp [he])
      rw [List.map_cons, List.foldl_cons,
        importStep_on_entry zdata acc fm d (hsub d (by simp))]
      rw [ih _ f (fun hm => hf (by simp at hm ⊢; exact Or.inr hm))
        (fun e he => hsub e (by simp [he]))]
      by_cases hemp : (mergedCustom fm d).isEmpty
      · rw [if_pos hemp]
      · rw [if_neg hemp]
        exact alistLookup_update_ne _ _ _ _ hne

/-- The import fold's rebuilt metadata entry for each dataset. -/
theorem import_fold_snd_lookup (zdata : List (String × DataFrame)) (fm : FileMeta) :
    ∀ (ds : List EchemDataset) (acc : List EchemDataset × FileMeta),
      (ds.map (fun d => d.filename)).Nodup →
      (∀ d ∈ ds, alistLookup zdata (dataPath d.filename) = some d.df) →
      ∀ d ∈ ds,
        alistLookup ((ds.map (fileEntryOf fm)).foldl (importStep zdata) acc).2 d.filename
          = if (mergedCustom fm d).isEmpty then alistLookup acc.2 d.filename
            else some (mergedCustom fm d) := by
  intro ds
  induction ds with
  | nil => intro acc _ _ d hd; exact absurd hd (by simp)
  | cons d0 rest ih =>
      intro acc hnd hsub d hd
      have hdnotin : d0.filename ∉ rest.map (fun d => d.filename) :=
        (List.nodup_cons.mp hnd).1
      rw [List.map_cons, List.foldl_cons,
        importStep_on_entry zdata acc fm d0 (hsub d0 (by simp))]
      rcases List.mem_cons.mp hd with he | hrest
      · subst he
        rw [import_fold_snd_frame zdata fm rest _ d.filename hdnotin
          (fun e he => hsub e (by simp [he]))]
        by_cases hemp : (mergedCustom fm d).isEmpty
        · rw [if_pos hemp, if_pos hemp]
        · rw [if_neg hemp, if_neg hemp]
          exact alistLookup_update_self _ _ _
      · have hne : d.filename ≠ d0.filename := by
          intro he
          exact hdnotin (he ▸ List.mem_map.mpr ⟨d, hrest, rfl⟩)
        rw [ih _ (List.nodup_cons.mp hnd).2 (fun e he => hsub e (by simp [he])) d hrest]
        by_cases hemp : (mergedCustom fm d).isEmpty
        · rw [if_pos hemp, if_pos hemp]
          by_cases hemp0 : (mergedCustom fm d0).isEmpty
          · rw [if_pos hemp0]
          · rw [if_neg hemp0]
            exact alistLookup_update_ne _ _ _ _ hne
        · rw [if_neg hemp, if_neg hemp]

/-- C4 (amended): with distinct filenames,
`session_import ∘ session_export` turns each dataset into
`importedDataset`: the table (hence every canonical column and the row
count), `columns`, `technique`, `timestamp` and `cycles` round-trip
exactly; the label becomes the file-metadata `label` entry when that map
carries one (else the original label); and the rebuilt per-file custom
metadata is `mergedCustom`: the original entry with its `label` key set
to that effective label (entry absent when the merge is empty) — not in
general the original entry. -/
theorem session_round_trip (datasets : List EchemDataset) (fm : FileMeta)
    (hnd : (datasets.map (fun d => d.filename)).Nodup) :
    (session_import (session_export datasets fm).1).1
      = datasets.map (importedDataset fm) ∧
    ∀ d ∈ datasets,
      alistLookup (session_import (session_export datasets fm).1).2 d.filename
        = if (mergedCustom fm d).isEmpty then none
          else some (mergedCustom fm d) := by
  have hfiles : (session_export datasets fm).1.files = datasets.map (fileEntryOf fm) :=
    sessionExportCore_files datasets fm hnd
  have hdata : (session_export datasets fm).1.data
      = datasets.map (fun d => (dataPath d.filename, d.df)) :=
    sessionExportCore_data datasets fm
  have hsub : ∀ d ∈ datasets,
      alistLookup (session_export datasets fm).1.data (dataPath d.filename) = some d.df := by
    intro d hd
    rw [hdata]
    exact lookup_dataMap datasets hnd d hd
  constructor
  · show ((session_export datasets fm).1.files.foldl
        (importStep (session_export datasets fm).1.data) ([], [])).1 = _
    rw [hfiles]
    rw [import_fold_fst _ fm datasets ([], []) hsub]
    rfl
  · intro d hd
    show alistLookup ((session_export datasets fm).1.files.foldl
        (importStep (session_export datasets fm).1.data) ([], [])).2 d.filename = _
    rw [hfiles]
    rw [import_fold_snd_lookup _ fm datasets ([], []) hnd hsub d hd]
    rfl

/-- C4 (counterexample): exporting a dataset labelled `L` whose
file-metadata entry is `{note: x}` (no `label` key) and importing the
result does not reproduce the custom metadata exactly: the imported entry
gains `label: L`. -/
theorem session_round_trip_metadata_counterexample :
    (session_import (session_export [sampleEcDataset] sampleFileMeta).1).2
      = [("f", [("note", "x"), ("label", "L")])] ∧
    sampleFileMeta = [("f", [("note", "x")])] ∧
    ([("f", [("note", "x"), ("label", "L")])] : FileMeta) ≠ sampleFileMeta := by
  refine ⟨?_, rfl, by decide⟩
  decide

/-- C4 (witness): the round trip applied to the one-dataset sample. -/
theorem session_round_trip_witness :
    (session_import (session_export [sampleEcDataset] sampleFileMeta).1).1
      = [sampleEcDataset].map (importedDataset sampleFileMeta) ∧
    ∀ d ∈ [sampleEcDataset],
      alistLookup (session_import (session_export [sampleEcDataset] sampleFileMeta).1).2
          d.filename
        = if (mergedCustom sampleFileMeta d).isEmpty then none
          else some (mergedCustom sampleFileMeta d) :=
  session_round_trip [sampleEcDataset] sampleFileMeta (by decide)

end EchemViewer
